import Mathlib

/-!
Verification of the RhythmAI recommendation engine (the `rhythmai/` Python
tree) against its natural-language specification.

The development is a shallow embedding: each Python function relevant to the
examined claims is transcribed as a Lean definition over explicit state.

General modelling conventions:
* Python strings are `String`; where code-point slicing matters (the emotion
  analyzer) texts are `List Char`, matching Python's sequence-of-code-points
  view.
* Python floats that only ever carry table constants or scores are `ℚ`.
* Python `None` is `Option.none`; dictionary `.get` with a default is
  `Option.getD` / an association-list lookup.
* External libraries (FAISS index internals, ChromaDB collection, the
  `cryptography` Fernet primitive, `base64`, `json`, the sentiment and
  embedding models) are black boxes per the specification; their outputs
  enter the embedded functions as explicit parameters, and their documented
  contracts appear as hypotheses of the theorems that need them.
-/

namespace Rhythmai

/-! ## Shared helpers -/

/-- Association-list lookup modelling Python `dict.get` over a literal dict
(first matching key wins; the literal dicts in the source have distinct keys). -/
def alookup {α : Type} : List (String × α) → String → Option α
  | [], _ => none
  | (k, v) :: rest, key => if k = key then some v else alookup rest key

/-- Python truthiness of an optional string (`if emotion:`): `None` and the
empty string are falsy. -/
def truthyStr : Option String → Bool
  | none => false
  | some s => s ≠ ""

/-- Last `n` elements of a list (`history[-n:]` for `n ≥ 1`). -/
def takeLast {α : Type} (n : Nat) (l : List α) : List α :=
  l.drop (l.length - n)

/-- `'' → None`, anything else unchanged: the stores' result formatting
(`album_image if album_image else None`). -/
def emptyToNone (s : String) : Option String :=
  if s = "" then none else some s

/-! ## Per-user memory: `ConversationMemory`, `UserProfile`, `ContextManager`
(`rhythmai/memory/conversation_memory.py`, `user_profile.py`,
`context_manager.py`) -/

/-- The emotion dictionary stored inside an interaction.  The full analyzer
response carries `music_params`; the minimal dictionary built by
`ContextManager.add_interaction` does not, hence the `Option`. -/
structure EmotionPayload where
  dominantEmotion : String
  dominantScore : ℚ
  suggestedGenres : List String
  valence : ℚ
  energy : ℚ
  musicParams : Option (ℚ × ℚ)
deriving Repr, DecidableEq

/-- One record of the conversation log, as built by
`ConversationMemory.add_interaction`. -/
structure Interaction where
  timestamp : String
  userInput : Option String
  aiResponse : String
  emotionData : Option EmotionPayload
  recommendations : Option (List String)
deriving Repr, DecidableEq

/-- `ConversationMemory._save_interaction`: append the interaction, then keep
only the last `maxH = Config.MAX_CONVERSATION_HISTORY` entries. -/
def saveInteraction (maxH : Nat) (h : List Interaction) (x : Interaction) :
    List Interaction :=
  let h' := h ++ [x]
  if maxH < h'.length then takeLast maxH h' else h'

/-- `ConversationMemory.get_recent_interactions`: `history[-n:] if history
else []` (note Python's `[-0:]` returns the whole list). -/
def getRecentInteractions (h : List Interaction) (n : Nat) : List Interaction :=
  if h = [] then [] else if n = 0 then h else takeLast n h

/-- The `statistics` sub-dictionary of a user profile. -/
structure ProfileStats where
  totalSessions : Nat
  totalRecommendations : Nat
  mostCommonEmotion : Option String
  lastSession : Option String
deriving Repr, DecidableEq

/-- `UserProfile.update_statistics`: increment `total_sessions`, set
`last_session`, and overwrite `most_common_emotion` only when `emotion` is
truthy. -/
def updateStatistics (now : String) (emotion : Option String)
    (s : ProfileStats) : ProfileStats :=
  { s with
    totalSessions := s.totalSessions + 1
    lastSession := some now
    mostCommonEmotion :=
      if truthyStr emotion then emotion else s.mostCommonEmotion }

/-- The minimal emotion dictionary `ContextManager.add_interaction` builds
when only `emotion`/`genre` are supplied (confidence `1.0`, genres
`[genre] if genre else ['pop']`, dimensions `0.5`/`0.5`, no `music_params`). -/
def basicEmotionPayload (emotion : String) (genre : Option String) :
    EmotionPayload :=
  { dominantEmotion := emotion
    dominantScore := 1
    suggestedGenres := if truthyStr genre then [genre.getD ""] else ["pop"]
    valence := 1/2
    energy := 1/2
    musicParams := none }

/-- Combined state owned by a `ContextManager`: the user's conversation log
and the profile statistics. -/
structure CMState where
  history : List Interaction
  stats : ProfileStats
deriving Repr, DecidableEq

/-- `ContextManager.add_interaction`: build the minimal emotion dictionary if
only `emotion` was given, record the interaction in the conversation memory,
and call `update_statistics` only under `if emotion:`. -/
def cmAddInteraction (maxH : Nat) (now : String) (userText : Option String)
    (emotion : Option String) (genre : Option String)
    (emotionData : Option EmotionPayload) (st : CMState) : CMState :=
  let ed := if emotionData.isNone && truthyStr emotion then
      some (basicEmotionPayload (emotion.getD "") genre)
    else emotionData
  let interaction : Interaction :=
    { timestamp := now, userInput := userText, aiResponse := ""
      emotionData := ed, recommendations := none }
  { history := saveInteraction maxH st.history interaction
    stats :=
      if truthyStr emotion then updateStatistics now emotion st.stats
      else st.stats }

/-! ## Encryption (`rhythmai/utils/security.py`)

`DataEncryption` composes four external primitives: `json` (de)serialisation,
UTF-8 (de)coding, the `cryptography` Fernet AEAD, and url-safe Base64.  The
primitives — black boxes per the specification — are collected in a
structure; the repository's own code is the composition below. -/

/-- The external primitives `DataEncryption` is built on, over an abstract
dictionary type `Dict` and an abstract byte-string type `Bytes`.  Decoders
are partial (`Option`): Fernet rejects tampered tokens, Base64 and UTF-8
reject malformed input, `json.loads` rejects non-JSON text. -/
structure CryptoPrims (Dict : Type) (Bytes : Type) where
  jsonDumps : Dict → String
  jsonLoads : String → Option Dict
  utf8Encode : String → Bytes
  utf8Decode : Bytes → Option String
  fernetEncrypt : Bytes → Bytes
  fernetDecrypt : Bytes → Option Bytes
  b64encode : Bytes → String
  b64decode : String → Option Bytes

/-- `DataEncryption.encrypt_string`:
`base64.urlsafe_b64encode(fernet.encrypt(plaintext.encode())).decode()`. -/
def encryptString {Dict Bytes : Type} (c : CryptoPrims Dict Bytes)
    (plaintext : String) : String :=
  c.b64encode (c.fernetEncrypt (c.utf8Encode plaintext))

/-- `DataEncryption.decrypt_string`:
`fernet.decrypt(base64.urlsafe_b64decode(encrypted_text.encode())).decode()`;
any failing stage raises, modelled by `none`. -/
def decryptString {Dict Bytes : Type} (c : CryptoPrims Dict Bytes)
    (encryptedText : String) : Option String :=
  (c.b64decode encryptedText).bind c.fernetDecrypt |>.bind c.utf8Decode

/-- `DataEncryption.encrypt_dict`: `encrypt_string(json.dumps(data_dict))`. -/
def encryptDict {Dict Bytes : Type} (c : CryptoPrims Dict Bytes)
    (d : Dict) : String :=
  encryptString c (c.jsonDumps d)

/-- `DataEncryption.decrypt_dict`: `json.loads(decrypt_string(encrypted_text))`. -/
def decryptDict {Dict Bytes : Type} (c : CryptoPrims Dict Bytes)
    (encryptedText : String) : Option Dict :=
  (decryptString c encryptedText).bind c.jsonLoads

/-- `ConversationMemory._load_full_history`, parameterised by the outcome of
the two decoding attempts.  `decryptHist c` is
`decrypt_dict(c).get('history', [])` (`none` models the raised `ValueError`),
`parseHist c` is the plaintext `json.loads(c)` migration attempt, `reEncrypt`
is the re-encryption written back on the migration path.  Input `none` means
the history file does not exist.  Returns the loaded history together with
the content written back to the file (`none` when nothing is written): every
failure path returns `([], none)` — no error propagates. -/
def loadFullHistory (decryptHist : String → Option (List Interaction))
    (parseHist : String → Option (List Interaction))
    (reEncrypt : List Interaction → String)
    (file : Option String) : List Interaction × Option String :=
  match file with
  | none => ([], none)
  | some content =>
    match decryptHist content with
    | some h => (h, none)
    | none =>
      match parseHist content with
      | some h => (h, some (reEncrypt h))
      | none => ([], none)

/-! ## Vector stores (`rhythmai/stores/faiss_store.py`, `chroma_store.py`) -/

/-- A catalogue record's metadata as stored by `FAISSStore.add_songs` (all
values strings; `''` denotes "absent"). -/
structure TrackMeta where
  id : String
  name : String
  artist : String
  description : String
  genre : String
  url : String
  albumImage : String
  previewUrl : String
deriving Repr, DecidableEq

/-- An insertion record as handed to `add_songs`; each field is read with
`song.get(key, default)`, so fields are optional. -/
structure SongInput where
  id : Option String
  name : Option String
  artist : Option String
  description : Option String
  genre : Option String
  url : Option String
  albumImage : Option String
  previewUrl : Option String
deriving Repr, DecidableEq

/-- Python `dict.__setitem__` on a `String → Nat` dictionary kept as an
association list: overwrite the existing key or append a new binding. -/
def dictInsert (k : String) (v : Nat) (d : List (String × Nat)) :
    List (String × Nat) :=
  if d.any fun p => p.1 == k then
    d.map fun p => if p.1 == k then (k, v) else p
  else d ++ [(k, v)]

/-- The persistent state of a `FAISSStore`: the metadata sidecar list, the
`id_to_idx` dictionary, and the FAISS index's vector count (`ntotal`). -/
structure FAISSStore where
  metadata : List TrackMeta
  idToIdx : List (String × Nat)
  ntotal : Nat
deriving Repr, DecidableEq

/-- `FAISSStore.add_songs`: reject an empty batch, then append one metadata
row and one `id_to_idx` binding per song, with `song.get` defaults
(`id → "song_<start+idx>"`, `name/artist → "Unknown"`, `genre → "unknown"`,
the rest → `''`).  The embedding rows are appended to the index
(`ntotal`).  There is no duplicate-id check of any kind.
`faissAddStep` is the body of the per-song loop. -/
def faissAddStep (start : Nat) (acc : List TrackMeta × List (String × Nat))
    (p : Nat × SongInput) : List TrackMeta × List (String × Nat) :=
  let idx := p.1
  let song := p.2
  let songId := song.id.getD ("song_" ++ toString (start + idx))
  let meta : TrackMeta :=
    { id := songId
      name := song.name.getD "Unknown"
      artist := song.artist.getD "Unknown"
      description := song.description.getD ""
      genre := song.genre.getD "unknown"
      url := song.url.getD ""
      albumImage := song.albumImage.getD ""
      previewUrl := song.previewUrl.getD "" }
  (acc.1 ++ [meta], dictInsert songId (start + idx) acc.2)

def faissAddSongs (st : FAISSStore) (songs : List SongInput) :
    Except String FAISSStore :=
  if songs = [] then Except.error "Se requieren canciones"
  else
    let stepped := songs.enum.foldl (faissAddStep st.metadata.length)
      (st.metadata, st.idToIdx)
    Except.ok
      { metadata := stepped.1
        idToIdx := stepped.2
        ntotal := st.ntotal + songs.length }

/-- `metadata.get(k)` for the keys a stored row has. -/
def metaGet (m : TrackMeta) : String → Option String
  | "id" => some m.id
  | "name" => some m.name
  | "artist" => some m.artist
  | "description" => some m.description
  | "genre" => some m.genre
  | "url" => some m.url
  | "album_image" => some m.albumImage
  | "preview_url" => some m.previewUrl
  | _ => none

/-- One element of a store's `search` result list. -/
structure SearchResult where
  id : String
  name : String
  artist : String
  description : String
  genre : String
  url : String
  albumImage : Option String
  previewUrl : Option String
  distance : ℚ
  similarity : ℚ
deriving Repr, DecidableEq

/-- The result dictionary `FAISSStore.search` builds for one accepted hit:
empty `album_image`/`preview_url` become `None`; similarity is
`1/(1 + L2 distance)`. -/
def formatFaissResult (m : TrackMeta) (dist : ℚ) : SearchResult :=
  { id := m.id
    name := m.name
    artist := m.artist
    description := m.description
    genre := m.genre
    url := m.url
    albumImage := emptyToNone m.albumImage
    previewUrl := emptyToNone m.previewUrl
    distance := dist
    similarity := 1 / (1 + dist) }

/-- The result-formatting loop of `FAISSStore.search` over the raw
`(distance, index)` rows returned by `index.search`: skip out-of-range
indices, post-filter on the metadata, and break once `n_results` results
have been accepted (the break test runs after the append). -/
def faissFormat (meta : List TrackMeta) (fd : List (String × String)) :
    Nat → List (ℚ × Int) → List SearchResult
  | _, [] => []
  | n, (dist, idx) :: rest =>
    if idx < 0 then faissFormat meta fd n rest
    else
      match meta.get? idx.toNat with
      | none => faissFormat meta fd n rest
      | some m =>
        if fd.all fun kv => metaGet m kv.1 == some kv.2 then
          if n ≤ 1 then [formatFaissResult m dist]
          else formatFaissResult m dist :: faissFormat meta fd (n - 1) rest
        else faissFormat meta fd n rest

/-- The number of raw hits `FAISSStore.search` requests from the index:
`min(n_results * 2 if filter_dict else n_results, count)`. -/
def faissSearchK (filtered : Bool) (n count : Nat) : Nat :=
  min (if filtered then n * 2 else n) count

/-- `FAISSStore.search`: empty store short-circuits to `[]`; otherwise format
the raw index hits.  `rawHits` is the output of the external
`index.search` call (at most `faissSearchK` rows, `-1` marking missing
neighbours). -/
def faissSearch (st : FAISSStore) (rawHits : List (ℚ × Int)) (n : Nat)
    (fd : List (String × String)) : List SearchResult :=
  if st.ntotal = 0 then [] else faissFormat st.metadata fd n rawHits

/-- A metadata row as stored in the ChromaDB collection (`add_songs` coerces
every value to a string, `None → ''`). -/
structure ChromaMeta where
  name : String
  artist : String
  description : String
  genre : String
  url : String
  albumImage : String
  previewUrl : String
deriving Repr, DecidableEq

/-- One row of the external `collection.query` answer. -/
structure ChromaRow where
  id : String
  meta : ChromaMeta
  distance : ℚ
deriving Repr, DecidableEq

/-- The result dictionary `ChromaStore.search` builds for one returned row:
empty `album_image`/`preview_url` become `None`; similarity is
`1 - cosine distance`. -/
def formatChromaRow (row : ChromaRow) : SearchResult :=
  { id := row.id
    name := row.meta.name
    artist := row.meta.artist
    description := row.meta.description
    genre := row.meta.genre
    url := row.meta.url
    albumImage := emptyToNone row.meta.albumImage
    previewUrl := emptyToNone row.meta.previewUrl
    distance := row.distance
    similarity := 1 - row.distance }

/-- `ChromaStore.search`: empty collection short-circuits to `[]`; otherwise
format the rows returned by the external `collection.query` call (which is
issued with `n_results = min(n, count)` and the `where` filter). -/
def chromaSearch (count : Nat) (rows : List ChromaRow) : List SearchResult :=
  if count = 0 then [] else rows.map formatChromaRow

/-! ## Emotion analyzer (`rhythmai/core/emotion_analyzer.py`)

Texts are `List Char`, matching Python's code-point view of `str`.  The
sentiment pipeline, the embedding model (through its cosine similarities
against the fixed prototype set) and the regex-based activity extractor feed
`analyze` through an oracle; `none` models a raised exception (or, for the
extractor, a `None` return). -/

/-- `str.strip()`. -/
def stripL (l : List Char) : List Char :=
  ((l.dropWhile Char.isWhitespace).reverse.dropWhile Char.isWhitespace).reverse

/-- `text_clean = text.strip()[:512]` (line 254 of `emotion_analyzer.py`):
the string handed BOTH to the sentiment pipeline and to
`_extract_activity_context`. -/
def analyzeTextClean (t : List Char) : List Char :=
  (stripL t).take 512

/-- Projection: the text the sentiment pipeline receives in `analyze`. -/
def sentimentInput (t : List Char) : List Char :=
  analyzeTextClean t

/-- Projection: the text `_extract_activity_context` receives in `analyze`
(line 268: `self._extract_activity_context(text_clean)`). -/
def activityInput (t : List Char) : List Char :=
  analyzeTextClean t

/-- One `{label, score}` entry of the sentiment pipeline's answer. -/
structure LabelScore where
  label : String
  score : ℚ
deriving Repr, DecidableEq

/-- The `dimensions` sub-dictionary of an emotion response. -/
structure Dimensions where
  valence : ℚ
  energy : ℚ
deriving Repr, DecidableEq

/-- The dictionary `_build_emotion_response` returns. -/
structure EmotionResponse where
  dominantEmotion : String
  dominantScore : ℚ
  suggestedGenres : List String
  dimensions : Dimensions
  targetValence : ℚ
  targetEnergy : ℚ
deriving Repr, DecidableEq

/-- `emotion_to_genres` of `_build_emotion_response`. -/
def emotionGenresTable : List (String × List String) :=
  [("sadness", ["sad", "chill", "pop"]),
   ("joy", ["happy", "pop", "dance", "party"]),
   ("anger", ["rock", "workout"]),
   ("fear", ["chill", "sad"]),
   ("love", ["pop", "happy"]),
   ("neutral", ["pop", "happy", "party"]),
   ("excitement", ["party", "dance", "happy"]),
   ("focus", ["chill", "pop"]),
   ("sleep", ["chill", "sad"]),
   ("party", ["party", "dance", "happy"]),
   ("workout", ["workout", "rock", "party"]),
   ("chill", ["chill", "sad", "pop"]),
   ("nostalgic", ["sad", "pop", "chill"]),
   ("motivated", ["workout", "rock", "party", "happy"]),
   ("stressed", ["chill", "sad"]),
   ("confident", ["pop", "rock", "party"]),
   ("relaxed", ["chill", "pop"]),
   ("bored", ["pop", "party", "dance"])]

/-- `emotion_to_genres.get(emotion, ['pop'])`. -/
def emotionToGenres (e : String) : List String :=
  (alookup emotionGenresTable e).getD ["pop"]

/-- `dimensions_map` of `_build_emotion_response`. -/
def dimensionsTable : List (String × Dimensions) :=
  [("sadness", ⟨2/10, 3/10⟩),
   ("joy", ⟨9/10, 7/10⟩),
   ("anger", ⟨3/10, 9/10⟩),
   ("fear", ⟨3/10, 4/10⟩),
   ("love", ⟨8/10, 5/10⟩),
   ("neutral", ⟨5/10, 5/10⟩),
   ("excitement", ⟨85/100, 95/100⟩),
   ("focus", ⟨5/10, 4/10⟩),
   ("sleep", ⟨6/10, 15/100⟩),
   ("party", ⟨9/10, 95/100⟩),
   ("workout", ⟨7/10, 95/100⟩),
   ("chill", ⟨6/10, 2/10⟩),
   ("nostalgic", ⟨4/10, 35/100⟩),
   ("motivated", ⟨8/10, 85/100⟩),
   ("stressed", ⟨3/10, 6/10⟩),
   ("confident", ⟨85/100, 75/100⟩),
   ("relaxed", ⟨7/10, 25/100⟩),
   ("bored", ⟨4/10, 3/10⟩)]

/-- `dimensions_map.get(emotion, {'valence': 0.5, 'energy': 0.5})`. -/
def emotionDimensions (e : String) : Dimensions :=
  (alookup dimensionsTable e).getD ⟨1/2, 1/2⟩

/-- `EmotionAnalyzer._build_emotion_response`. -/
def buildEmotionResponse (emotion : String) (confidence : ℚ) : EmotionResponse :=
  let d := emotionDimensions emotion
  { dominantEmotion := emotion
    dominantScore := confidence
    suggestedGenres := emotionToGenres emotion
    dimensions := d
    targetValence := d.valence
    targetEnergy := d.energy }

/-- `EmotionAnalyzer._sentiment_to_emotion`. -/
def sentimentToEmotion (s : String) : String :=
  (alookup [("positive", "joy"), ("pos", "joy"), ("negative", "sadness"),
    ("neg", "sadness"), ("neutral", "neutral")] s).getD "neutral"

/-- The `strong_mapping` table of `_activity_type_to_emotion`. -/
def strongMapping : List (String × String) :=
  [("happy", "joy"), ("sad", "sadness"), ("angry", "anger"),
   ("romantic", "love"), ("sleep", "sleep"), ("workout", "workout"),
   ("party", "party"), ("nostalgic", "nostalgic"), ("motivated", "motivated"),
   ("stressed", "stressed"), ("confident", "confident"),
   ("relaxed", "relaxed"), ("bored", "bored")]

/-- `EmotionAnalyzer._activity_type_to_emotion`. -/
def activityTypeToEmotion (activityType sentiment : String) : String :=
  match alookup strongMapping activityType with
  | some e => e
  | none =>
    let sn := if sentiment = "pos" then "positive"
      else if sentiment = "neg" then "negative" else sentiment
    if activityType = "high_energy" then
      (alookup [("positive", "excitement"), ("negative", "stressed"),
        ("neutral", "excitement")] sn).getD "neutral"
    else if activityType = "low_energy" then
      (alookup [("positive", "relaxed"), ("negative", "sadness"),
        ("neutral", "focus")] sn).getD "neutral"
    else sentimentToEmotion sentiment

/-- Python's `max(xs, key=score)` / `sorted(xs, key=score, reverse=True)[0]`:
the first element attaining the maximal score; `none` on an empty list
(where CPython raises, caught by the enclosing handler). -/
def pickMax {α : Type} (score : α → ℚ) : List α → Option α
  | [] => none
  | x :: xs => some (xs.foldl (fun b y => if score b < score y then y else b) x)

/-- `EmotionAnalyzer._analyze_semantic_context`, with the prototype cosine
similarities supplied by the embedding oracle (`none` = the embedding step
threw, caught by the internal handler). -/
def analyzeSemanticContext (sims : Option (List (String × ℚ)))
    (sentiment : String) (confidence : ℚ) : String :=
  match sims with
  | none => sentimentToEmotion sentiment
  | some l =>
    match pickMax (fun p => p.2) l with
    | none => sentimentToEmotion sentiment
    | some best =>
      let threshold : ℚ := 35/100 - (if 4/5 < confidence then 5/100 else 0)
      if threshold < best.2 then activityTypeToEmotion best.1 sentiment
      else sentimentToEmotion sentiment

/-- The black boxes `analyze` calls: the sentiment pipeline, the regex
activity extractor, and the embedder's similarities against the prototypes.
`none` from `sentiment` or `similarities` models a raised exception. -/
structure AnalyzerOracle where
  sentiment : List Char → Option (List LabelScore)
  extract : List Char → Option (List Char)
  similarities : List Char → Option (List (String × ℚ))

/-- `EmotionAnalyzer.analyze`: guard on blank text; truncate the stripped
text to 512 code points; run sentiment, activity extraction and semantic
classification on that truncated text; every caught exception yields the
neutral response with confidence `0.5`. -/
def analyze (o : AnalyzerOracle) (text : List Char) : EmotionResponse :=
  if stripL text = [] then buildEmotionResponse "neutral" (1/2)
  else
    let textClean := analyzeTextClean text
    match o.sentiment textClean with
    | none => buildEmotionResponse "neutral" (1/2)
    | some results =>
      match pickMax LabelScore.score results with
      | none => buildEmotionResponse "neutral" (1/2)
      | some dominant =>
        let sentiment := dominant.label.toLower
        let conf := dominant.score
        let ctx : List Char :=
          match o.extract textClean with
          | some c => if c = [] then textClean else c
          | none => textClean
        buildEmotionResponse
          (analyzeSemanticContext (o.similarities ctx) sentiment conf) conf

/-! ## Recommender search phase (`rhythmai/core/music_recommender.py`,
`MusicRecommender.recommend` lines 99–167)

The vector store is abstracted as a function from (genre filter, requested
count) to a result list; the query embedding is fixed across the two calls
of one request and is absorbed into that function. -/

/-- `search_n = n_results * 2 if randomize else n_results`. -/
def recommenderSearchN (n : Nat) (randomize : Bool) : Nat :=
  if randomize then n * 2 else n

/-- The retrieval phase of `recommend`: primary-genre search, then the
complementary secondary-genre search when
`len(vector_results) < search_n // 2 and len(suggested_genres) > 1`.
Returns the concatenated results and, when the second search was issued,
the secondary genre with the count it requested. -/
def retrieveResults (store : Option String → Nat → List SearchResult)
    (genres : List String) (n : Nat) (randomize : Bool) :
    List SearchResult × Option (String × Nat) :=
  let sn := recommenderSearchN n randomize
  match genres with
  | [] => (store none sn, none)
  | [primary] => (store (some primary) sn, none)
  | primary :: secondary :: _ =>
    let primaryResults := store (some primary) sn
    if primaryResults.length < sn / 2 then
      let req := sn - primaryResults.length
      (primaryResults ++ store (some secondary) req, some (secondary, req))
    else (primaryResults, none)

/-- The post-processing of `recommend`: with `randomize` and an overfull
list, keep the top `n // 2`, shuffle the rest and trim; otherwise truncate
to `n`.  `shuffleTail` stands for `random.shuffle`. -/
def finalizeResults (shuffleTail : List SearchResult → List SearchResult)
    (n : Nat) (randomize : Bool) (rs : List SearchResult) : List SearchResult :=
  if randomize ∧ n < rs.length then
    let top := rs.take (n / 2)
    let remaining := shuffleTail (rs.drop (n / 2))
    top ++ remaining.take (n - top.length)
  else if n < rs.length then rs.take n
  else rs

/-- The complete `vector_results` computation of `recommend`: empty store
short-circuits to `[]`. -/
def recommendVectorResults (count : Nat)
    (store : Option String → Nat → List SearchResult)
    (shuffleTail : List SearchResult → List SearchResult)
    (genres : List String) (n : Nat) (randomize : Bool) : List SearchResult :=
  if count = 0 then []
  else finalizeResults shuffleTail n randomize
    (retrieveResults store genres n randomize).1

/-! ## Concrete sample data used by witnesses and counterexamples -/

/-- A full analyzer response for "joy", as the recommender passes it to
`add_interaction`. -/
def payloadJoy : EmotionPayload :=
  { dominantEmotion := "joy"
    dominantScore := 9/10
    suggestedGenres := ["happy", "pop", "dance", "party"]
    valence := 9/10
    energy := 7/10
    musicParams := some (9/10, 7/10) }

/-- A fresh profile's statistics (`_create_default_profile`). -/
def statsFresh : ProfileStats :=
  { totalSessions := 0
    totalRecommendations := 0
    mostCommonEmotion := none
    lastSession := none }

/-- A fresh user's context state: empty log, default statistics. -/
def cmStateFresh : CMState :=
  { history := [], stats := statsFresh }

/-- Sample interaction number `i`. -/
def sampleInteraction (i : Nat) : Interaction :=
  { timestamp := "ts" ++ toString i
    userInput := some ("text" ++ toString i)
    aiResponse := ""
    emotionData := none
    recommendations := none }

/-- Five sample interactions. -/
def historyFive : List Interaction :=
  (List.range 5).map sampleInteraction

/-- A placeholder search result of genre `g`. -/
def dummyResult (g : String) (i : Nat) : SearchResult :=
  { id := "t" ++ toString i
    name := "Track " ++ toString i
    artist := "Artist"
    description := ""
    genre := g
    url := ""
    albumImage := none
    previewUrl := none
    distance := 0
    similarity := 1 }

/-- A concrete store behaviour: five `happy` tracks in total, and more `pop`
tracks than are ever requested. -/
def storeFiveHappy : Option String → Nat → List SearchResult
  | some "happy", _ => (List.range 5).map (dummyResult "happy")
  | some "pop", n => (List.range n).map (dummyResult "pop")
  | _, _ => []

/-- A stored catalogue record with id `t1`. -/
def trackT1 : TrackMeta :=
  { id := "t1", name := "Song One", artist := "Artist", description := ""
    genre := "pop", url := "", albumImage := "", previewUrl := "" }

/-- A FAISS store already holding `trackT1`. -/
def faissStoreOne : FAISSStore :=
  { metadata := [trackT1], idToIdx := [("t1", 0)], ntotal := 1 }

/-- An insertion batch whose single record reuses the existing id `t1`. -/
def dupSong : SongInput :=
  { id := some "t1", name := some "Song One Again", artist := some "Artist"
    description := none, genre := some "pop", url := none
    albumImage := none, previewUrl := none }

/-- A second stored catalogue record, genre `happy`, with a non-empty
`album_image` and an empty `preview_url`. -/
def trackT2 : TrackMeta :=
  { id := "t2", name := "Song Two", artist := "Artist", description := "upbeat"
    genre := "happy", url := "https://example.org/t2"
    albumImage := "https://example.org/t2.jpg", previewUrl := "" }

/-- A FAISS store holding `trackT1` and `trackT2`. -/
def faissStoreTwo : FAISSStore :=
  { metadata := [trackT1, trackT2], idToIdx := [("t1", 0), ("t2", 1)]
    ntotal := 2 }

/-- A ChromaDB metadata row of genre `pop`. -/
def chromaMetaPop : ChromaMeta :=
  { name := "Song C", artist := "Artist", description := "", genre := "pop"
    url := "", albumImage := "", previewUrl := "https://example.org/c.mp3" }

/-- A single ChromaDB query row. -/
def rowPop : ChromaRow :=
  { id := "c1", meta := chromaMetaPop, distance := 0 }

/-- An analyzer oracle whose sentiment pipeline always answers
`[{label: "positive", score: 0.9}]` and whose other stages return `None`. -/
def oracleJoy : AnalyzerOracle :=
  { sentiment := fun _ => some [{ label := "positive", score := 9/10 }]
    extract := fun _ => none
    similarities := fun _ => none }

/-! ## Theorems -/

theorem alookup_mem {α : Type} {l : List (String × α)} {k : String} {v : α}
    (h : alookup l k = some v) : (k, v) ∈ l := by
  induction l with
  | nil => simp [alookup] at h
  | cons p rest ih =>
    rw [alookup] at h
    by_cases hk : p.1 = k
    · rw [if_pos hk] at h
      have hp : p = (k, v) := by
        obtain ⟨pk, pv⟩ := p
        simp only at hk
        simp only [Option.some_inj] at h
        rw [hk, h]
      rw [hp]
      exact List.mem_cons_self _ _
    · rw [if_neg hk] at h
      exact List.mem_cons_of_mem _ (ih h)

theorem takeLast_length_le {α : Type} (n : Nat) (l : List α) :
    (takeLast n l).length ≤ n := by
  simp only [takeLast, List.length_drop]
  omega

theorem takeLast_of_length_le {α : Type} {n : Nat} {l : List α}
    (h : l.length ≤ n) : takeLast n l = l := by
  simp only [takeLast]
  rw [Nat.sub_eq_zero_of_le h, List.drop_zero]

theorem takeLast_eq_reverse_take {α : Type} (n : Nat) (l : List α) :
    takeLast n l = (l.reverse.take n).reverse := by
  have h := List.reverse_take (l := l.reverse) (n := n)
  simp only [List.reverse_reverse, List.length_reverse] at h
  rw [takeLast, ← h]

theorem takeLast_append_takeLast {α : Type} (n : Nat) (l xs : List α) :
    takeLast n (takeLast n l ++ xs) = takeLast n (l ++ xs) := by
  simp only [takeLast_eq_reverse_take, List.reverse_append, List.reverse_reverse,
    List.take_append_eq_append_take, List.take_take, List.length_reverse]
  rw [Nat.min_eq_left (Nat.sub_le _ _)]

theorem saveInteraction_eq_takeLast (maxH : Nat) (h : List Interaction)
    (x : Interaction) : saveInteraction maxH h x = takeLast maxH (h ++ [x]) := by
  rw [saveInteraction]
  by_cases hc : maxH < (h ++ [x]).length
  · rw [if_pos hc]
  · rw [if_neg hc, takeLast_of_length_le (by omega)]

theorem foldl_saveInteraction (maxH : Nat) (xs : List Interaction)
    (h : List Interaction) (hh : h.length ≤ maxH) :
    xs.foldl (saveInteraction maxH) h = takeLast maxH (h ++ xs) := by
  induction xs generalizing h with
  | nil =>
    rw [List.foldl_nil, List.append_nil, takeLast_of_length_le hh]
  | cons x xs ih =>
    rw [List.foldl_cons, saveInteraction_eq_takeLast,
      ih _ (takeLast_length_le _ _), takeLast_append_takeLast,
      List.append_assoc, List.singleton_append]

/-- Claim C1, counterexample: the exact call `Recommender.recommend` makes at
its step 10 — `add_interaction(user_text=..., emotion_data=...)`, with the
`emotion` keyword left at `None` — appends the interaction to the
conversation log but does NOT update the profile statistics
(`total_sessions` stays `0`), whereas a call to `update_statistics` would
have incremented `total_sessions` to `1`. -/
theorem c1_recommender_path_skips_statistics :
    (cmAddInteraction 50 "2026-01-01T00:00:00" (some "estoy muy feliz") none
      none (some payloadJoy) cmStateFresh).history.length = 1 ∧
    (cmAddInteraction 50 "2026-01-01T00:00:00" (some "estoy muy feliz") none
      none (some payloadJoy) cmStateFresh).stats = statsFresh ∧
    (updateStatistics "2026-01-01T00:00:00" (some "joy") statsFresh).totalSessions
      = statsFresh.totalSessions + 1 :=
  ⟨rfl, rfl, rfl⟩

/-- Claim C1 (amended): every call to `ContextManager.add_interaction`
appends the interaction to the conversation log, but
`UserProfile.update_statistics` is called — equivalently, the profile
statistics change — if and only if the `emotion` keyword argument is truthy.
The recommender's step-10 call passes only `user_text` and `emotion_data`,
so on that path the statistics are never updated. -/
theorem c1_add_interaction_appends_and_stats_iff (maxH : Nat) (now : String)
    (ut em g : Option String) (ed : Option EmotionPayload) (st : CMState) :
    (∃ x : Interaction, x.timestamp = now ∧ x.userInput = ut ∧
      (cmAddInteraction maxH now ut em g ed st).history
        = saveInteraction maxH st.history x) ∧
    ((cmAddInteraction maxH now ut em g ed st).stats ≠ st.stats
      ↔ truthyStr em = true) := by
  constructor
  · exact ⟨_, rfl, rfl, rfl⟩
  · rw [cmAddInteraction]
    cases hem : truthyStr em
    · simp
    · simp only [if_true, ne_eq]
      constructor
      · intro _; trivial
      · intro _ hcontra
        have hsess := congrArg ProfileStats.totalSessions hcontra
        simp only [updateStatistics] at hsess
        omega

/-- Claim C8: after `MAX_CONVERSATION_HISTORY + m` interactions have been
appended through `_save_interaction` starting from an empty log, the full
stored history — and `get_recent_interactions` asked for all of it — is
exactly the last `MAX_CONVERSATION_HISTORY` interactions in insertion
order. -/
theorem c8_rolling_cap (maxH m : Nat) (xs : List Interaction)
    (hlen : xs.length = maxH + m) :
    xs.foldl (saveInteraction maxH) [] = xs.drop m ∧
    getRecentInteractions (xs.foldl (saveInteraction maxH) []) (maxH + m)
      = xs.drop m := by
  have hfold : xs.foldl (saveInteraction maxH) [] = xs.drop m := by
    rw [foldl_saveInteraction maxH xs [] (by simp), List.nil_append, takeLast]
    congr 1
    omega
  refine ⟨hfold, ?_⟩
  rw [hfold, getRecentInteractions]
  have hdlen : (xs.drop m).length = maxH := by
    rw [List.length_drop]
    omega
  by_cases hnil : xs.drop m = []
  · rw [if_pos hnil, hnil]
  · rw [if_neg hnil]
    have hz : ¬ maxH + m = 0 := by
      intro h0
      apply hnil
      apply List.drop_eq_nil_of_le
      omega
    rw [if_neg hz, takeLast_of_length_le (by omega)]

/-- Witness for C8 at `MAX_CONVERSATION_HISTORY = 3`, `m = 2`, with five
concrete interactions. -/
theorem c8_rolling_cap_witness :
    historyFive.length = 3 + 2 ∧
    (historyFive.foldl (saveInteraction 3) [] = historyFive.drop 2 ∧
     getRecentInteractions (historyFive.foldl (saveInteraction 3) []) (3 + 2)
       = historyFive.drop 2) :=
  ⟨rfl, c8_rolling_cap 3 2 historyFive rfl⟩

/-- Claim C5, counterexample: a history file whose content fails both
authenticated decryption and the plaintext-JSON migration parse is loaded as
the empty history with no error and no write-back — the very same value a
missing file yields.  No typed error surfaces to the caller. -/
theorem c5_double_failure_returns_empty :
    loadFullHistory (fun _ => none) (fun _ => none) (fun _ => "")
      (some "corrupted-base64-garbage") = ([], none) ∧
    loadFullHistory (fun _ => none) (fun _ => none) (fun _ => "") none
      = ([], none) :=
  ⟨rfl, rfl⟩

/-- Claim C5 (amended): when the history file exists but fails authenticated
decryption and also fails the plaintext-JSON migration parse,
`_load_full_history` logs the failure and returns an empty history to the
caller — silently succeeding with `[]`, with no write-back; no typed error
is raised. -/
theorem c5_double_failure_silent (decryptHist parseHist :
      String → Option (List Interaction))
    (reEncrypt : List Interaction → String) (content : String)
    (h1 : decryptHist content = none) (h2 : parseHist content = none) :
    loadFullHistory decryptHist parseHist reEncrypt (some content)
      = ([], none) := by
  rw [loadFullHistory, h1, h2]

/-- Witness for the amended C5 at a concrete always-failing decoder pair. -/
theorem c5_double_failure_silent_witness :
    loadFullHistory (fun _ => none) (fun _ => none) (fun h => toString h.length)
      (some "not-a-fernet-token") = ([], none) :=
  c5_double_failure_silent _ _ _ "not-a-fernet-token" rfl rfl

/-- Claim C9: with the library contracts of `json`, UTF-8, Fernet and
url-safe Base64 (each decode inverts its encode, and `P` is
JSON-serialisable so `json.loads(json.dumps(P)) == P`), decrypting the
encryption of a dictionary under the same key returns the dictionary:
`decrypt_dict(encrypt_dict(P)) == P`. -/
theorem c9_encrypt_decrypt_round_trip {Dict Bytes : Type}
    (c : CryptoPrims Dict Bytes) (P : Dict)
    (hf : ∀ b, c.fernetDecrypt (c.fernetEncrypt b) = some b)
    (hb : ∀ b, c.b64decode (c.b64encode b) = some b)
    (hu : ∀ s, c.utf8Decode (c.utf8Encode s) = some s)
    (hj : c.jsonLoads (c.jsonDumps P) = some P) :
    decryptDict c (encryptDict c P) = some P := by
  rw [decryptDict, encryptDict, decryptString, encryptString, hb]
  simp only [Option.some_bind, hf, hu, hj]

/-- Witness for C9 with trivially invertible primitives and a concrete
payload. -/
theorem c9_encrypt_decrypt_round_trip_witness :
    decryptDict
      { jsonDumps := id, jsonLoads := some, utf8Encode := id, utf8Decode := some
        fernetEncrypt := id, fernetDecrypt := some, b64encode := id
        b64decode := some : CryptoPrims String String }
      (encryptDict
        { jsonDumps := id, jsonLoads := some, utf8Encode := id, utf8Decode := some
          fernetEncrypt := id, fernetDecrypt := some, b64encode := id
          b64decode := some : CryptoPrims String String }
        "user profile")
      = some "user profile" :=
  c9_encrypt_decrypt_round_trip _ "user profile"
    (fun _ => rfl) (fun _ => rfl) (fun _ => rfl) rfl

/-- Claim C2, counterexample: with `randomise` on and `k = 8` the primary
search (issued for `2k = 16`) returns 5 results — NOT fewer than
`k/2 = 4` — yet the code issues the secondary search, because its threshold
is `search_n // 2 = 8`; moreover it requests `16 − 5 = 11`, not the
remainder of `k`. -/
theorem c2_randomize_threshold_counterexample :
    (storeFiveHappy (some "happy") (recommenderSearchN 8 true)).length = 5 ∧
    ¬ ((storeFiveHappy (some "happy") (recommenderSearchN 8 true)).length
        < 8 / 2) ∧
    (retrieveResults storeFiveHappy ["happy", "pop"] 8 true).2
      = some ("pop", 11) := by
  have h5 : (storeFiveHappy (some "happy") (recommenderSearchN 8 true)).length
      = 5 := rfl
  refine ⟨h5, ?_, rfl⟩
  rw [h5]
  decide

set_option maxRecDepth 4096 in
/-- Claim C2 (amended): for `suggested_genres = primary :: secondary :: _`,
the secondary search is issued iff the primary search returned fewer than
`search_n // 2` results, where `search_n = 2k` when `randomise` and `k`
otherwise (so the claim's `k/2` threshold only holds with `randomise`
off); when issued it requests `search_n − |primary|`, and the
retrieval-phase list (before the randomisation/truncation step) is the
primary results followed by the secondary results. -/
theorem c2_secondary_search_characterisation
    (store : Option String → Nat → List SearchResult) (n : Nat)
    (randomize : Bool) (primary secondary : String) (rest : List String) :
    ((retrieveResults store (primary :: secondary :: rest) n randomize).2.isSome
      ↔ (store (some primary) (recommenderSearchN n randomize)).length
          < recommenderSearchN n randomize / 2) ∧
    ((store (some primary) (recommenderSearchN n randomize)).length
        < recommenderSearchN n randomize / 2 →
      retrieveResults store (primary :: secondary :: rest) n randomize
        = (store (some primary) (recommenderSearchN n randomize)
            ++ store (some secondary)
              (recommenderSearchN n randomize
                - (store (some primary) (recommenderSearchN n randomize)).length),
          some (secondary,
            recommenderSearchN n randomize
              - (store (some primary) (recommenderSearchN n randomize)).length))) ∧
    (¬ (store (some primary) (recommenderSearchN n randomize)).length
          < recommenderSearchN n randomize / 2 →
      retrieveResults store (primary :: secondary :: rest) n randomize
        = (store (some primary) (recommenderSearchN n randomize), none)) := by
  by_cases hc : (store (some primary) (recommenderSearchN n randomize)).length
      < recommenderSearchN n randomize / 2
  · refine ⟨?_, fun _ => ?_, fun hn => absurd hc hn⟩
    · simp [retrieveResults, hc]
    · simp [retrieveResults, hc]
  · refine ⟨?_, fun hy => absurd hy hc, fun _ => ?_⟩
    · simp [retrieveResults, hc]
    · simp [retrieveResults, hc]

/-- Witness for the amended C2: the concrete five-`happy` store with
`k = 8`, `randomise` on, where the hypothesis `5 < 16 / 2` of the issued
branch holds. -/
theorem c2_secondary_search_witness :
    retrieveResults storeFiveHappy ["happy", "pop"] 8 true
      = (storeFiveHappy (some "happy") 16 ++ storeFiveHappy (some "pop") 11,
        some ("pop", 11)) :=
  (c2_secondary_search_characterisation storeFiveHappy 8 true "happy" "pop"
    []).2.1 (by decide)

/-- `dropWhile isWhitespace` leaves a run of `'a'` untouched. -/
theorem dropWhile_ws_replicate_a (n : Nat) :
    (List.replicate n 'a').dropWhile Char.isWhitespace
      = List.replicate n 'a' := by
  cases n with
  | zero => rfl
  | succ k =>
    rw [List.replicate_succ, List.dropWhile_cons, if_neg (by decide)]

theorem stripL_replicate_a (n : Nat) :
    stripL (List.replicate n 'a') = List.replicate n 'a' := by
  rw [stripL, dropWhile_ws_replicate_a, List.reverse_replicate,
    dropWhile_ws_replicate_a, List.reverse_replicate]

/-- Claim C3, counterexample: for the 513-code-point text `'a' * 513`, the
string handed to `_extract_activity_context` is NOT the whole input — it is
the 512-code-point truncation (`analyze` computes
`text_clean = text.strip()[:512]` once and hands it to both the sentiment
call and the activity extractor). -/
theorem c3_activity_extractor_sees_truncated_text :
    512 < (List.replicate 513 'a').length ∧
    activityInput (List.replicate 513 'a') ≠ List.replicate 513 'a' := by
  refine ⟨by rw [List.length_replicate]; omega, ?_⟩
  rw [activityInput, analyzeTextClean, stripL_replicate_a]
  intro h
  have hlen := congrArg List.length h
  simp only [List.length_take, List.length_replicate] at hlen
  omega

/-- Claim C3 (amended): both the sentiment call and the activity-context
extraction operate on the same string, the stripped input truncated to its
first 512 code points; `analyze` consults the extractor only at that
truncated string (replacing the extractor anywhere else does not change the
result). -/
theorem c3_sentiment_and_activity_share_truncation (t : List Char) :
    sentimentInput t = (stripL t).take 512 ∧
    activityInput t = sentimentInput t ∧
    ∀ o : AnalyzerOracle,
      analyze o t
        = analyze
            ⟨o.sentiment,
             fun s => if s = activityInput t then o.extract s else none,
             o.similarities⟩ t := by
  refine ⟨rfl, rfl, fun o => ?_⟩
  rw [analyze, analyze]
  by_cases h : stripL t = []
  · rw [if_pos h, if_pos h]
  · rw [if_neg h, if_neg h]
    have he : (if analyzeTextClean t = activityInput t
        then o.extract (analyzeTextClean t) else none)
        = o.extract (analyzeTextClean t) := if_pos rfl
    simp only [he]

theorem foldl_faissAddStep_length (l : List (Nat × SongInput)) (start : Nat)
    (acc : List TrackMeta × List (String × Nat)) :
    ((l.foldl (faissAddStep start) acc).1).length = acc.1.length + l.length := by
  induction l generalizing acc with
  | nil =>
    rw [List.foldl_nil, List.length_nil, Nat.add_zero]
  | cons p rest ih =>
    rw [List.foldl_cons, ih]
    simp only [faissAddStep, List.length_append, List.length_cons,
      List.length_nil]
    omega

/-- Claim C4, counterexample: inserting a batch whose record reuses the
already-present track id `t1` into the FAISS back-end succeeds
(`Except.ok`, not an error) and appends the record, leaving TWO metadata
rows with id `t1` — the batch is written and `track_id` is no longer unique
within the store. -/
theorem c4_faiss_accepts_duplicate_id :
    ∃ st', faissAddSongs faissStoreOne [dupSong] = Except.ok st' ∧
      st'.metadata.length = 2 ∧
      st'.metadata.map TrackMeta.id = ["t1", "t1"] := by
  refine ⟨_, rfl, rfl, rfl⟩

/-- Claim C4 (amended): `FAISSStore.add_songs` performs no duplicate-id
check of any kind: every non-empty batch — duplicate track ids included —
is accepted and fully written, appending one metadata row and one index
vector per record (`id_to_idx` is repointed to the newest row for a reused
id).  Only the empty batch is rejected. -/
theorem c4_faiss_add_has_no_duplicate_check (st : FAISSStore)
    (songs : List SongInput) (h : songs ≠ []) :
    ∃ st', faissAddSongs st songs = Except.ok st' ∧
      st'.metadata.length = st.metadata.length + songs.length ∧
      st'.ntotal = st.ntotal + songs.length := by
  rw [faissAddSongs, if_neg h]
  refine ⟨_, rfl, ?_, rfl⟩
  rw [foldl_faissAddStep_length, List.enum_length]

/-- Witness for the amended C4 at the concrete duplicate-id batch. -/
theorem c4_faiss_add_has_no_duplicate_check_witness :
    ∃ st', faissAddSongs faissStoreOne [dupSong] = Except.ok st' ∧
      st'.metadata.length = faissStoreOne.metadata.length + 1 ∧
      st'.ntotal = faissStoreOne.ntotal + 1 :=
  c4_faiss_add_has_no_duplicate_check faissStoreOne [dupSong] (by decide)

theorem emotionToGenres_ne_nil (e : String) : emotionToGenres e ≠ [] := by
  rw [emotionToGenres]
  cases h : alookup emotionGenresTable e with
  | none => simp
  | some v =>
    have hall : ∀ p ∈ emotionGenresTable, p.2 ≠ [] := by decide
    simpa using hall _ (alookup_mem h)

theorem emotionDimensions_bounds (e : String) :
    0 ≤ (emotionDimensions e).valence ∧ (emotionDimensions e).valence ≤ 1 ∧
    0 ≤ (emotionDimensions e).energy ∧ (emotionDimensions e).energy ≤ 1 := by
  rw [emotionDimensions]
  cases h : alookup dimensionsTable e with
  | none =>
    refine ⟨by norm_num, by norm_num, by norm_num, by norm_num⟩
  | some d =>
    have hall : ∀ p ∈ dimensionsTable,
        0 ≤ p.2.valence ∧ p.2.valence ≤ 1 ∧
        0 ≤ p.2.energy ∧ p.2.energy ≤ 1 := by
      intro p hp
      fin_cases hp <;> norm_num [dimensionsTable]
    simpa using hall _ (alookup_mem h)

theorem foldl_pickMax_mem {α : Type} (score : α → ℚ) (xs : List α) (x : α) :
    xs.foldl (fun b y => if score b < score y then y else b) x ∈ x :: xs := by
  induction xs generalizing x with
  | nil => exact List.mem_singleton_self x
  | cons y ys ih =>
    rw [List.foldl_cons]
    rcases List.mem_cons.mp (ih (if score x < score y then y else x)) with h1 | h2
    · by_cases hc : score x < score y
      · rw [if_pos hc] at h1 ⊢
        rw [h1]
        exact List.mem_cons_of_mem _ (List.mem_cons_self _ _)
      · rw [if_neg hc] at h1 ⊢
        rw [h1]
        exact List.mem_cons_self _ _
    · exact List.mem_cons_of_mem _ (List.mem_cons_of_mem _ h2)

theorem pickMax_mem {α : Type} {score : α → ℚ} {l : List α} {x : α}
    (h : pickMax score l = some x) : x ∈ l := by
  cases l with
  | nil => simp [pickMax] at h
  | cons a as =>
    rw [pickMax, Option.some_inj] at h
    rw [← h]
    exact foldl_pickMax_mem score as a

/-- Every path of `analyze` ends in `_build_emotion_response`, with
confidence either the default `0.5` or the argmax score of the sentiment
pipeline's answer. -/
theorem analyze_shape (o : AnalyzerOracle) (t : List Char) :
    ∃ e c, analyze o t = buildEmotionResponse e c ∧
      (c = 1/2 ∨ ∃ r, o.sentiment (analyzeTextClean t) = some r ∧
        ∃ ls ∈ r, c = ls.score) := by
  by_cases h : stripL t = []
  · refine ⟨"neutral", 1/2, ?_, Or.inl rfl⟩
    simp [analyze, h]
  · cases hs : o.sentiment (analyzeTextClean t) with
    | none =>
      refine ⟨"neutral", 1/2, ?_, Or.inl rfl⟩
      simp [analyze, h, hs]
    | some results =>
      cases hm : pickMax LabelScore.score results with
      | none =>
        refine ⟨"neutral", 1/2, ?_, Or.inl rfl⟩
        simp [analyze, h, hs, hm]
      | some dominant =>
        refine ⟨analyzeSemanticContext
            (o.similarities
              (match o.extract (analyzeTextClean t) with
               | some c => if c = [] then analyzeTextClean t else c
               | none => analyzeTextClean t))
            dominant.label.toLower dominant.score,
          dominant.score, ?_,
          Or.inr ⟨results, rfl, dominant, pickMax_mem hm, rfl⟩⟩
        simp [analyze, h, hs, hm]

/-- Claim C6: for every input text (blank texts and any combination of
failing internal steps included), `analyze` returns a response with a
non-empty `suggested_genres`, a `dominant_score` in `[0,1]` (given the
sentiment model's contract that its scores lie in `[0,1]`), and
`dimensions.valence`, `dimensions.energy` in `[0,1]`. -/
theorem c6_analyze_invariants (o : AnalyzerOracle) (t : List Char)
    (hscore : ∀ s r, o.sentiment s = some r →
      ∀ ls ∈ r, 0 ≤ ls.score ∧ ls.score ≤ 1) :
    (analyze o t).suggestedGenres ≠ [] ∧
    (0 ≤ (analyze o t).dominantScore ∧ (analyze o t).dominantScore ≤ 1) ∧
    (0 ≤ (analyze o t).dimensions.valence ∧
      (analyze o t).dimensions.valence ≤ 1) ∧
    (0 ≤ (analyze o t).dimensions.energy ∧
      (analyze o t).dimensions.energy ≤ 1) := by
  obtain ⟨e, c, heq, hc⟩ := analyze_shape o t
  rw [heq]
  have hcb : 0 ≤ c ∧ c ≤ 1 := by
    rcases hc with h12 | ⟨r, hsr, ls, hmem, hcs⟩
    · rw [h12]
      constructor <;> norm_num
    · rw [hcs]
      exact hscore _ r hsr ls hmem
  have hdim := emotionDimensions_bounds e
  exact ⟨emotionToGenres_ne_nil e, hcb,
    ⟨hdim.1, hdim.2.1⟩, ⟨hdim.2.2.1, hdim.2.2.2⟩⟩

/-- Witness for C6 at a concrete oracle and text. -/
theorem c6_analyze_invariants_witness :
    (analyze oracleJoy "estoy feliz".toList).suggestedGenres ≠ [] ∧
    (0 ≤ (analyze oracleJoy "estoy feliz".toList).dominantScore ∧
      (analyze oracleJoy "estoy feliz".toList).dominantScore ≤ 1) ∧
    (0 ≤ (analyze oracleJoy "estoy feliz".toList).dimensions.valence ∧
      (analyze oracleJoy "estoy feliz".toList).dimensions.valence ≤ 1) ∧
    (0 ≤ (analyze oracleJoy "estoy feliz".toList).dimensions.energy ∧
      (analyze oracleJoy "estoy feliz".toList).dimensions.energy ≤ 1) :=
  c6_analyze_invariants oracleJoy "estoy feliz".toList (by
    intro s r h ls hls
    have hr : ({ label := "positive", score := 9/10 } : LabelScore) :: [] = r :=
      Option.some_inj.mp h
    rw [← hr, List.mem_singleton] at hls
    rw [hls]
    constructor <;> norm_num)

/-- Every result the `FAISSStore.search` formatting loop emits is the
formatting of some stored metadata row that passed the post-filter. -/
theorem faissFormat_mem (meta : List TrackMeta) (fd : List (String × String)) :
    ∀ (n : Nat) (hits : List (ℚ × Int)) (r : SearchResult),
      r ∈ faissFormat meta fd n hits →
      ∃ m, m ∈ meta ∧ (fd.all fun kv => metaGet m kv.1 == some kv.2) = true ∧
        ∃ d, r = formatFaissResult m d := by
  intro n hits
  induction hits generalizing n with
  | nil =>
    intro r hr
    simp [faissFormat] at hr
  | cons hit rest ih =>
    obtain ⟨dist, idx⟩ := hit
    intro r hr
    rw [faissFormat] at hr
    split at hr
    · exact ih _ r hr
    · split at hr
      · exact ih _ r hr
      · rename_i m hget
        split at hr
        · rename_i hfilter
          split at hr
          · rw [List.mem_singleton] at hr
            exact ⟨m, List.get?_mem hget, hfilter, dist, hr⟩
          · rcases List.mem_cons.mp hr with h1 | h2
            · exact ⟨m, List.get?_mem hget, hfilter, dist, h1⟩
            · exact ih _ r h2
        · exact ih _ r hr

theorem faissFormat_length_le_hits (meta : List TrackMeta)
    (fd : List (String × String)) :
    ∀ (n : Nat) (hits : List (ℚ × Int)),
      (faissFormat meta fd n hits).length ≤ hits.length := by
  intro n hits
  induction hits generalizing n with
  | nil => simp [faissFormat]
  | cons hit rest ih =>
    obtain ⟨dist, idx⟩ := hit
    rw [faissFormat]
    split
    · exact Nat.le_succ_of_le (ih _)
    · split
      · exact Nat.le_succ_of_le (ih _)
      · split
        · split
          · simp
          · simp only [List.length_cons, Nat.add_le_add_iff_right]
            exact ih _
        · exact Nat.le_succ_of_le (ih _)

theorem faissFormat_length_le (meta : List TrackMeta)
    (fd : List (String × String)) :
    ∀ (n : Nat) (hits : List (ℚ × Int)), 1 ≤ n →
      (faissFormat meta fd n hits).length ≤ n := by
  intro n hits
  induction hits generalizing n with
  | nil =>
    intro hn
    simp [faissFormat]
  | cons hit rest ih =>
    obtain ⟨dist, idx⟩ := hit
    intro hn
    rw [faissFormat]
    split
    · exact ih _ hn
    · split
      · exact ih _ hn
      · split
        · split
          · simpa using hn
          · rename_i hgt
            have h2 : 1 ≤ n - 1 := by omega
            have := ih (n - 1) h2
            simp only [List.length_cons]
            omega
        · exact ih _ hn

theorem faissSearch_mem {st : FAISSStore} {fd : List (String × String)}
    {n : Nat} {hits : List (ℚ × Int)} {r : SearchResult}
    (hr : r ∈ faissSearch st hits n fd) :
    ∃ m, m ∈ st.metadata ∧
      (fd.all fun kv => metaGet m kv.1 == some kv.2) = true ∧
      ∃ d, r = formatFaissResult m d := by
  rw [faissSearch] at hr
  split at hr
  · simp at hr
  · exact faissFormat_mem st.metadata fd n hits r hr

/-- Claim C7: for both back-ends, every element of a genre-filtered search
has exactly the requested genre and the result list has at most `k`
elements.  For the FAISS back-end this needs only the index contract that
`index.search` returns at most the requested `search_k` rows; for the
ChromaDB back-end it needs the library contract that `collection.query`
returns at most the requested number of rows, all satisfying the `where`
filter. -/
theorem c7_filter_soundness :
    (∀ (st : FAISSStore) (rawHits : List (ℚ × Int)) (n : Nat) (g : String),
      rawHits.length ≤ faissSearchK true n st.ntotal →
        (faissSearch st rawHits n [("genre", g)]).length ≤ n ∧
        ∀ r ∈ faissSearch st rawHits n [("genre", g)], r.genre = g) ∧
    (∀ (count n : Nat) (g : String) (rows : List ChromaRow),
      rows.length ≤ min n count →
      (∀ row ∈ rows, row.meta.genre = g) →
        (chromaSearch count rows).length ≤ n ∧
        ∀ r ∈ chromaSearch count rows, r.genre = g) := by
  constructor
  · intro st rawHits n g hk
    constructor
    · rw [faissSearch]
      split
      · simp
      · by_cases hn : 1 ≤ n
        · exact faissFormat_length_le st.metadata _ n rawHits hn
        · have hn0 : n = 0 := by omega
          have hle := faissFormat_length_le_hits st.metadata
            ([("genre", g)]) n rawHits
          have hk' : rawHits.length ≤ min (n * 2) st.ntotal := by
            simpa [faissSearchK] using hk
          omega
    · intro r hr
      obtain ⟨m, _, hfilter, d, rfl⟩ := faissSearch_mem hr
      simp only [List.all_cons, List.all_nil, Bool.and_true, beq_iff_eq,
        metaGet] at hfilter
      simpa [formatFaissResult] using hfilter
  · intro count n g rows hlen hg
    constructor
    · rw [chromaSearch]
      split
      · simp
      · rw [List.length_map]
        omega
    · intro r hr
      rw [chromaSearch] at hr
      split at hr
      · simp at hr
      · obtain ⟨row, hrow, rfl⟩ := List.mem_map.mp hr
        simpa [formatChromaRow] using hg row hrow

/-- Witness for C7: a two-track FAISS store queried with filter
`{'genre': 'pop'}` over two raw index hits, and a one-row ChromaDB answer
for the same filter. -/
theorem c7_filter_soundness_witness :
    ((faissSearch faissStoreTwo [(0, 0), (0, 1)] 2 [("genre", "pop")]).length ≤ 2 ∧
      ∀ r ∈ faissSearch faissStoreTwo [(0, 0), (0, 1)] 2 [("genre", "pop")],
        r.genre = "pop") ∧
    ((chromaSearch 1 [rowPop]).length ≤ 1 ∧
      ∀ r ∈ chromaSearch 1 [rowPop], r.genre = "pop") :=
  ⟨c7_filter_soundness.1 faissStoreTwo [(0, 0), (0, 1)] 2 "pop" (by decide),
   c7_filter_soundness.2 1 1 "pop" [rowPop] (by decide) (by
    intro row hrow
    rw [List.mem_singleton] at hrow
    rw [hrow]
    rfl)⟩

/-- Claim C10: in every search result of either back-end, `album_image` and
`preview_url` are `None` exactly when the stored metadata string is empty
and the stored string itself otherwise; in particular a caller never
observes the empty string in these fields. -/
theorem c10_optional_url_fields :
    (∀ s : String, (emptyToNone s = none ↔ s = "") ∧
      (s ≠ "" → emptyToNone s = some s) ∧ emptyToNone s ≠ some "") ∧
    (∀ (st : FAISSStore) (hits : List (ℚ × Int)) (n : Nat)
        (fd : List (String × String)),
      ∀ r ∈ faissSearch st hits n fd,
        ∃ m ∈ st.metadata, r.albumImage = emptyToNone m.albumImage ∧
          r.previewUrl = emptyToNone m.previewUrl) ∧
    (∀ (count : Nat) (rows : List ChromaRow),
      ∀ r ∈ chromaSearch count rows,
        ∃ row ∈ rows, r.albumImage = emptyToNone row.meta.albumImage ∧
          r.previewUrl = emptyToNone row.meta.previewUrl) := by
  refine ⟨?_, ?_, ?_⟩
  · intro s
    by_cases h : s = ""
    · simp [emptyToNone, h]
    · simp [emptyToNone, h]
  · intro st hits n fd r hr
    obtain ⟨m, hm, _, d, rfl⟩ := faissSearch_mem hr
    exact ⟨m, hm, rfl, rfl⟩
  · intro count rows r hr
    rw [chromaSearch] at hr
    split at hr
    · simp at hr
    · obtain ⟨row, hrow, rfl⟩ := List.mem_map.mp hr
      exact ⟨row, hrow, rfl, rfl⟩

/-- Witness for C10: the spec facts at a concrete string, plus a concrete
result of each back-end. -/
theorem c10_optional_url_fields_witness :
    ((emptyToNone "x" = none ↔ "x" = "") ∧
      ("x" ≠ "" → emptyToNone "x" = some "x") ∧ emptyToNone "x" ≠ some "") ∧
    (∃ m ∈ faissStoreTwo.metadata,
      (formatFaissResult trackT2 0).albumImage = emptyToNone m.albumImage ∧
      (formatFaissResult trackT2 0).previewUrl = emptyToNone m.previewUrl) ∧
    (∃ row ∈ [rowPop],
      (formatChromaRow rowPop).albumImage = emptyToNone row.meta.albumImage ∧
      (formatChromaRow rowPop).previewUrl = emptyToNone row.meta.previewUrl) :=
  ⟨c10_optional_url_fields.1 "x",
   c10_optional_url_fields.2.1 faissStoreTwo [(0, 1)] 1 []
     (formatFaissResult trackT2 0) (List.mem_singleton_self _),
   c10_optional_url_fields.2.2 1 [rowPop] (formatChromaRow rowPop)
     (List.mem_singleton_self _)⟩

end Rhythmai
